import Mathlib

/-!
# captcha.js: reloading the captcha image

A shallow embedding of `static/js/captcha.js` (the functions `setSrcQuery`
and `reloadCaptcha`) together with the parts of the host environment they use:
strings as sequences of UTF-16 code units, `String.prototype.indexOf`,
`String.prototype.substr`, string concatenation, property reads and writes on
an element, `document.getElementById`, and the clock read by
`(new Date()).getTime()`.

Statements of the script that can throw are modelled with `Except`; the
document is passed explicitly, so that a function returns its completion
together with the document it leaves behind.
-/

namespace Captcha

/-! ## Strings -/

/-- A UTF-16 code unit.  Every 16-bit value is a natural number; nothing below
depends on the upper bound, so the theorems hold for all of them. -/
abbrev CodeUnit := Nat

/-- A script string: a finite sequence of code units. -/
abbrev JSString := List CodeUnit

/-- The code unit of `?` (U+003F), the only character of the literal `'?'`. -/
def questionMark : CodeUnit := 63

/-- The string literal `'?'` / `"?"`. -/
def questionStr : JSString := [questionMark]

/-- The string literal `'captcha'`. -/
def captchaId : JSString := [99, 97, 112, 116, 99, 104, 97]

/-- The string literal `"reload="`. -/
def reloadPrefix : JSString := [114, 101, 108, 111, 97, 100, 61]

/-- Search of `pat` in `s` from the left, `k` being the index of the head of
`s` in the whole string: the smallest index at which `pat` occurs, or `-1`. -/
def indexOfFrom (pat : JSString) : JSString → Nat → Int
  | [], k => if pat.isPrefixOf [] then (k : Int) else -1
  | c :: cs, k => if pat.isPrefixOf (c :: cs) then (k : Int) else indexOfFrom pat cs (k + 1)

/-- `s.indexOf(pat)` with no position argument: the search starts at 0. -/
def indexOf (s pat : JSString) : Int := indexOfFrom pat s 0

/-- `s.substr(start, length)` for integer arguments: a negative `start` counts
from the end, `start` is clamped to the string, `length` is clamped to
`[0, size]`, and the code units from `start` up to the end index are taken. -/
def substr (s : JSString) (start length : Int) : JSString :=
  let size : Int := (s.length : Int)
  let intStart : Int := if start < 0 then max (size + start) 0 else min start size
  let intLength : Int := min (max length 0) size
  let intEnd : Int := min (intStart + intLength) size
  (s.drop intStart.toNat).take (intEnd - intStart).toNat

/-- The string of an integral number (as `"reload=" + n` converts it): the
decimal digits, with a leading `-` for a negative one.  Time values are
integers of magnitude at most 8.64e15, which print without an exponent. -/
def numberToString (n : Int) : JSString :=
  if n < 0 then 45 :: (Nat.toDigits 10 n.natAbs).map Char.toNat
  else (Nat.toDigits 10 n.natAbs).map Char.toNat

/-! ## Values, elements and the document -/

/-- The values the script handles: `undefined`, `null`, a string, or a
reference to an element of the document (its position in tree order). -/
inductive JSValue where
  | undefined : JSValue
  | null : JSValue
  | string (s : JSString) : JSValue
  | element (i : Nat) : JSValue
  deriving DecidableEq

/-- An element as the script sees it: its `id`, the value of its `src`
property (`undefined` for an element that has none) and its other
properties.  The `src` is a plain data property: a read answers the value
last written. -/
structure Element where
  id : JSString
  src : JSValue
  attrs : List (JSString × JSValue)
  deriving DecidableEq

/-- The document: its elements in tree order. -/
abbrev Document := List Element

/-- The exceptions the script can raise. -/
inductive JSError where
  | typeError : JSError
  deriving DecidableEq

deriving instance DecidableEq for Except

/-- First element in tree order whose id is `id`, `k` being the position of
the head of the list in the document; `null` when there is none. -/
def findById (id : JSString) : List Element → Nat → JSValue
  | [], _ => JSValue.null
  | el :: rest, k => if el.id = id then JSValue.element k else findById id rest (k + 1)

/-- `document.getElementById(id)`. -/
def getElementById (doc : Document) (id : JSString) : JSValue := findById id doc 0

/-- The read `e.src`: a `TypeError` on `undefined` and `null`, `undefined` on
a string (which has no such property), the `src` of the element otherwise.  A
reference that denotes no element of the document has no `src`. -/
def getSrc (doc : Document) : JSValue → Except JSError JSValue
  | JSValue.undefined => Except.error JSError.typeError
  | JSValue.null => Except.error JSError.typeError
  | JSValue.string _ => Except.ok JSValue.undefined
  | JSValue.element i =>
    match doc[i]? with
    | some el => Except.ok el.src
    | none => Except.ok JSValue.undefined

/-- The write `e.src = v` on an element reference: the `src` of that element
is replaced, everything else is kept.  On a value that is no element of the
document nothing is stored. -/
def putSrc (doc : Document) (e : JSValue) (v : JSValue) : Document :=
  match e with
  | JSValue.element i =>
    match doc[i]? with
    | some el => doc.set i { el with src := v }
    | none => doc
  | _ => doc

/-! ## The script -/

/-- The function `setSrcQuery(e, q)`:
```
var src = e.src;
var p = src.indexOf('?');
if (p >= 0) { src = src.substr(0, p); }
e.src = src + "?" + q
```
The result is the completion (normal, or the exception raised) and the document
afterwards.  The only write is the last statement, so an exception leaves
the document as it was. -/
def setSrcQuery (e : JSValue) (q : JSString) (doc : Document) :
    Except JSError Unit × Document :=
  match getSrc doc e with
  | Except.error err => (Except.error err, doc)
  | Except.ok (JSValue.string src) =>
    let p : Int := indexOf src questionStr
    let src : JSString := if p ≥ 0 then substr src 0 p else src
    (Except.ok (), putSrc doc e (JSValue.string (src ++ questionStr ++ q)))
  | Except.ok _ => (Except.error JSError.typeError, doc)

/-- The function `reloadCaptcha()`, `now` being the value of
`(new Date()).getTime()`:
```
setSrcQuery(document.getElementById('captcha'), "reload=" + (new Date()).getTime());
return false;
```
An exception of the call propagates and the `return` is not reached. -/
def reloadCaptcha (now : Int) (doc : Document) : Except JSError Bool × Document :=
  match setSrcQuery (getElementById doc captchaId) (reloadPrefix ++ numberToString now) doc with
  | (Except.error err, doc1) => (Except.error err, doc1)
  | (Except.ok _, doc1) => (Except.ok false, doc1)

/-! ## Notions used by the statements -/

/-- The part of `s` strictly before its first `?`, all of `s` if it has
none. -/
def base (s : JSString) : JSString := s.takeWhile (fun c => c != questionMark)

/-- The `src` of the element at position `i`, if there is one. -/
def srcAt (doc : Document) (i : Nat) : Option JSValue := (doc[i]?).map Element.src

/-- The number that a string of decimal digits denotes, read from the left. -/
def digitsValue (ds : JSString) : Nat := ds.foldl (fun acc d => 10 * acc + (d - 48)) 0

/-- The string `ds` is the decimal numeral of the natural number `n`: it is not
empty, holds only the digits `0` to `9`, has no leading `0` unless it is `0`
itself, and denotes `n`. -/
def isDecimalDigits (ds : JSString) (n : Nat) : Prop :=
  ds ≠ [] ∧ (∀ d ∈ ds, 48 ≤ d ∧ d ≤ 57) ∧ (ds.head? = some 48 → ds = [48]) ∧ digitsValue ds = n

instance decidableIsDecimalDigits (ds : JSString) (n : Nat) : Decidable (isDecimalDigits ds n) := by
  unfold isDecimalDigits
  infer_instance

/-- The string `str` is the decimal numeral of the integer `t`: the numeral of
its magnitude, after a `-` when `t` is negative. -/
def isDecimal (str : JSString) (t : Int) : Prop :=
  if t < 0 then str.head? = some 45 ∧ isDecimalDigits str.tail t.natAbs
  else isDecimalDigits str t.natAbs

instance decidableIsDecimal (str : JSString) (t : Int) : Decidable (isDecimal str t) := by
  unfold isDecimal
  infer_instance

/-! ## Sample documents -/

/-- An element with id `logo`, src `/l` and one more property. -/
def sampleLogo : Element :=
  { id := [108, 111, 103, 111], src := JSValue.string [47, 108],
    attrs := [([97, 108, 116], JSValue.string [76])] }

/-- The captcha image: id `captcha`, src `/c?x?y`. -/
def sampleImage : Element :=
  { id := [99, 97, 112, 116, 99, 104, 97], src := JSValue.string [47, 99, 63, 120, 63, 121],
    attrs := [([97, 108, 116], JSValue.string [67])] }

/-- An element with id `captcha` that has no `src` property. -/
def sampleDiv : Element :=
  { id := [99, 97, 112, 116, 99, 104, 97], src := JSValue.undefined, attrs := [] }

/-- An element whose src is `??`. -/
def sampleMarks : Element := { id := [], src := JSValue.string [63, 63], attrs := [] }

/-- A document with the captcha image in second place. -/
def sampleDoc : Document := [sampleLogo, sampleImage]

/-- A document without an element of id `captcha`. -/
def sampleDocNoCaptcha : Document := [sampleLogo]

/-! ## Lemmas on the string operations -/

theorem isPrefixOf_questionStr_cons (c : CodeUnit) (cs : JSString) :
    List.isPrefixOf questionStr (c :: cs) = (questionMark == c) := by
  simp [questionStr, List.isPrefixOf]

theorem base_nil : base [] = [] := rfl

theorem base_cons_question (cs : JSString) : base (questionMark :: cs) = [] := by
  simp [base]

theorem base_cons_other (c : CodeUnit) (cs : JSString) (h : c ≠ questionMark) :
    base (c :: cs) = c :: base cs := by
  simp [base, h]

/-- A string without `?` is its own base. -/
theorem base_of_not_mem (s : JSString) (h : questionMark ∉ s) : base s = s := by
  unfold base
  rw [List.takeWhile_eq_self_iff]
  intro x hx
  have hne : x ≠ questionMark := fun hEq => h (hEq ▸ hx)
  simpa using hne

/-- The base of `pre ++ "?" ++ post`, when `pre` has no `?`, is `pre`. -/
theorem base_append_question (pre post : JSString) (h : questionMark ∉ pre) :
    base (pre ++ questionMark :: post) = pre := by
  induction pre with
  | nil => simp [base]
  | cons c cs ih =>
    have hc : c ≠ questionMark := fun hEq => h (by simp [hEq])
    have hcs : questionMark ∉ cs := fun hm => h (List.mem_cons_of_mem _ hm)
    rw [List.cons_append, base_cons_other _ _ hc, ih hcs]

/-- The base has no `?`. -/
theorem not_mem_base (s : JSString) : questionMark ∉ base s := by
  induction s with
  | nil => simp [base]
  | cons c cs ih =>
    by_cases hc : c = questionMark
    · subst hc
      simp [base_cons_question]
    · rw [base_cons_other _ _ hc]
      intro hm
      rcases List.mem_cons.mp hm with h | h
      · exact hc h.symm
      · exact ih h

/-- The base is the prefix of its own length. -/
theorem take_length_base (s : JSString) : s.take (base s).length = base s := by
  obtain ⟨t, ht⟩ := List.takeWhile_prefix (l := s) (fun c => c != questionMark)
  have hs : base s ++ t = s := ht
  calc s.take (base s).length = (base s ++ t).take (base s).length := by rw [hs]
    _ = base s := List.take_left _ _

theorem length_base_le (s : JSString) : (base s).length ≤ s.length :=
  (List.takeWhile_prefix (l := s) (fun c => c != questionMark)).length_le

/-- With a `?` in the string the base is strictly shorter than the string. -/
theorem length_base_lt (s : JSString) (h : questionMark ∈ s) :
    (base s).length < s.length := by
  rcases Nat.lt_or_ge (base s).length s.length with hlt | hge
  · exact hlt
  · exfalso
    have hEq : base s = s :=
      (List.takeWhile_prefix (l := s) (fun c => c != questionMark)).eq_of_length_le hge
    have hn := not_mem_base s
    rw [hEq] at hn
    exact hn h

/-- Without a `?` the search answers `-1`. -/
theorem indexOfFrom_of_not_mem (s : JSString) (k : Nat) (h : questionMark ∉ s) :
    indexOfFrom questionStr s k = -1 := by
  induction s generalizing k with
  | nil => simp [indexOfFrom, questionStr, List.isPrefixOf]
  | cons c cs ih =>
    have hc : questionMark ≠ c := fun hEq => h (by simp [hEq])
    have hcs : questionMark ∉ cs := fun hm => h (List.mem_cons_of_mem _ hm)
    simp [indexOfFrom, isPrefixOf_questionStr_cons, hc, ih _ hcs]

/-- With a `?` the search answers the position of the first one, which is the
length of the base. -/
theorem indexOfFrom_of_mem (s : JSString) (k : Nat) (h : questionMark ∈ s) :
    indexOfFrom questionStr s k = ((k + (base s).length : Nat) : Int) := by
  induction s generalizing k with
  | nil => simp at h
  | cons c cs ih =>
    by_cases hc : c = questionMark
    · subst hc
      simp [indexOfFrom, isPrefixOf_questionStr_cons, base_cons_question]
    · have hcs : questionMark ∈ cs := by
        rcases List.mem_cons.mp h with h1 | h1
        · exact absurd h1.symm hc
        · exact h1
      have hc2 : questionMark ≠ c := fun hEq => hc hEq.symm
      simp only [indexOfFrom, isPrefixOf_questionStr_cons, base_cons_other _ _ hc,
        List.length_cons]
      simp only [beq_iff_eq, hc2, if_false]
      rw [ih _ hcs]
      congr 1
      omega

theorem indexOf_of_not_mem (s : JSString) (h : questionMark ∉ s) :
    indexOf s questionStr = -1 := indexOfFrom_of_not_mem s 0 h

theorem indexOf_of_mem (s : JSString) (h : questionMark ∈ s) :
    indexOf s questionStr = ((base s).length : Int) := by
  unfold indexOf
  rw [indexOfFrom_of_mem s 0 h]
  simp

/-- The call `substr(0, n)` with `n` a natural number takes the first `n`
code units. -/
theorem substr_zero (s : JSString) (n : Nat) : substr s 0 (n : Int) = s.take n := by
  unfold substr
  simp only [lt_self_iff_false, if_false]
  have h0 : min (0 : Int) (s.length : Int) = 0 := by omega
  rw [h0]
  simp only [Int.toNat_zero, List.drop_zero, zero_add, sub_zero]
  rcases Nat.le_total n s.length with hle | hge
  · have h1 : min (min (max (n : Int) 0) (s.length : Int)) (s.length : Int) = (n : Int) := by
      omega
    rw [h1]
    simp
  · have h1 : min (min (max (n : Int) 0) (s.length : Int)) (s.length : Int)
        = (s.length : Int) := by omega
    rw [h1]
    simp only [Int.toNat_ofNat]
    rw [List.take_of_length_le (Nat.le_refl _), List.take_of_length_le hge]

/-- The string that `setSrcQuery` keeps in front of the new query is the
base. -/
theorem kept_eq_base (s : JSString) :
    (if indexOf s questionStr ≥ 0 then substr s 0 (indexOf s questionStr) else s) = base s := by
  by_cases h : questionMark ∈ s
  · rw [indexOf_of_mem s h]
    have hnn : ((base s).length : Int) ≥ 0 := Int.ofNat_nonneg _
    rw [if_pos hnn, substr_zero, take_length_base]
  · rw [indexOf_of_not_mem s h, base_of_not_mem s h]
    simp

/-! ## Lemmas on the string of a number -/

/-- The digit characters are `0` to `9` in order. -/
theorem digitChar_toNat (k : Nat) (h : k < 10) : (Nat.digitChar k).toNat = 48 + k := by
  revert k
  decide

theorem digit_range (k : Nat) (h : k < 10) : 48 ≤ 48 + k ∧ 48 + k ≤ 57 := by
  omega

theorem digitsValue_append_singleton (pre : JSString) (x : CodeUnit) :
    digitsValue (pre ++ [x]) = 10 * digitsValue pre + (x - 48) := by
  simp [digitsValue, List.foldl_append]

/-- The digits produced with enough fuel, put in front of the accumulator, are the
decimal numeral of the number. -/
theorem toDigitsCore_spec (fuel : Nat) : ∀ (n : Nat) (acc : List Char), n < fuel →
    ∃ pre : JSString, (Nat.toDigitsCore 10 fuel n acc).map Char.toNat = pre ++ acc.map Char.toNat ∧
      isDecimalDigits pre n := by
  induction fuel with
  | zero => intro n acc h; omega
  | succ fuel ih =>
    intro n acc h
    have hd : (Nat.digitChar (n % 10)).toNat = 48 + n % 10 :=
      digitChar_toNat _ (Nat.mod_lt _ (by decide))
    by_cases h0 : n / 10 = 0
    · refine ⟨[48 + n % 10], ?_, ?_⟩
      · simp [Nat.toDigitsCore, h0, hd]
      · have hlt : n % 10 < 10 := Nat.mod_lt _ (by decide)
        have hn : n % 10 = n := by omega
        refine ⟨by simp, ?_, ?_, ?_⟩
        · intro d hdm
          rw [List.mem_singleton.mp hdm]
          exact digit_range _ hlt
        · intro hh
          simpa using hh
        · simp [digitsValue]
          omega
    · have hlt : n / 10 < fuel := by omega
      obtain ⟨pre, hpre, hne, hrange, hlead, hval⟩ := ih (n / 10) (Nat.digitChar (n % 10) :: acc) hlt
      refine ⟨pre ++ [48 + n % 10], ?_, ?_⟩
      · simp [Nat.toDigitsCore, h0, hpre, hd]
      · have hm : n % 10 < 10 := Nat.mod_lt _ (by decide)
        refine ⟨by simp, ?_, ?_, ?_⟩
        · intro d hdm
          rcases List.mem_append.mp hdm with h1 | h1
          · exact hrange d h1
          · rw [List.mem_singleton.mp h1]
            exact digit_range _ hm
        · intro hh
          exfalso
          cases pre with
          | nil => exact hne rfl
          | cons p ps =>
            simp only [List.cons_append, List.head?_cons, Option.some.injEq] at hh
            have h48 := hlead (by simp [hh])
            rw [h48] at hval
            simp [digitsValue] at hval
            exact h0 hval.symm
        · rw [digitsValue_append_singleton, hval]
          omega

theorem toDigits_spec (n : Nat) : isDecimalDigits ((Nat.toDigits 10 n).map Char.toNat) n := by
  obtain ⟨pre, hpre, hdec⟩ := toDigitsCore_spec (n + 1) n [] (Nat.lt_succ_self n)
  unfold Nat.toDigits
  rw [hpre]
  simpa using hdec

/-- The string of an integer is its decimal numeral. -/
theorem numberToString_isDecimal (t : Int) : isDecimal (numberToString t) t := by
  unfold isDecimal numberToString
  by_cases h : t < 0
  · simp only [h, if_true, List.head?_cons, List.tail_cons, true_and]
    exact toDigits_spec _
  · simp only [h, if_false]
    exact toDigits_spec _

/-! ## Lemmas on the document -/

/-- The lookup answers `null` exactly when no element has the id. -/
theorem findById_eq_null_iff (id : JSString) (l : List Element) (k : Nat) :
    findById id l k = JSValue.null ↔ ∀ el ∈ l, el.id ≠ id := by
  induction l generalizing k with
  | nil => simp [findById]
  | cons el rest ih =>
    by_cases h : el.id = id
    · simp [findById, h]
    · simp [findById, h, ih]

/-- The lookup answers nothing but `null` or an element reference. -/
theorem findById_cases (id : JSString) (l : List Element) (k : Nat) :
    findById id l k = JSValue.null ∨ ∃ i, findById id l k = JSValue.element i := by
  induction l generalizing k with
  | nil => exact Or.inl rfl
  | cons el rest ih =>
    by_cases h : el.id = id
    · exact Or.inr ⟨k, by simp [findById, h]⟩
    · simpa [findById, h] using ih (k + 1)

/-- An element reference answered by the lookup is the position of the first
element with the id. -/
theorem findById_element (id : JSString) (l : List Element) (k i : Nat)
    (h : findById id l k = JSValue.element i) :
    k ≤ i ∧ (∃ el, l[i - k]? = some el ∧ el.id = id) ∧
      ∀ j, j < i - k → ∀ el, l[j]? = some el → el.id ≠ id := by
  induction l generalizing k with
  | nil => simp [findById] at h
  | cons el rest ih =>
    by_cases hid : el.id = id
    · simp only [findById, hid, if_true, JSValue.element.injEq] at h
      subst h
      simp [hid]
    · simp only [findById, hid, if_false] at h
      obtain ⟨hle, ⟨el1, hget, hel1⟩, hfirst⟩ := ih (k + 1) h
      have hik : i - k = (i - (k + 1)) + 1 := by omega
      refine ⟨by omega, ⟨el1, ?_, hel1⟩, ?_⟩
      · rw [hik, List.getElem?_cons_succ]
        exact hget
      · intro j hj el2 hel2
        cases j with
        | zero =>
          simp only [List.getElem?_cons_zero, Option.some.injEq] at hel2
          subst hel2
          exact hid
        | succ j =>
          rw [List.getElem?_cons_succ] at hel2
          exact hfirst j (by omega) el2 hel2

/-- The element answered by `getElementById` exists, has the id and is the
first one with it. -/
theorem getElementById_element (doc : Document) (id : JSString) (i : Nat)
    (h : getElementById doc id = JSValue.element i) :
    (∃ el, doc[i]? = some el ∧ el.id = id) ∧
      ∀ j, j < i → ∀ el, doc[j]? = some el → el.id ≠ id := by
  have := findById_element id doc 0 i h
  simpa using this.2

/-- The lookup reads nothing but the ids. -/
theorem findById_congr (id : JSString) (l1 l2 : List Element) (k : Nat)
    (h : l1.map Element.id = l2.map Element.id) : findById id l1 k = findById id l2 k := by
  induction l1 generalizing l2 k with
  | nil =>
    cases l2 with
    | nil => rfl
    | cons b l2 => simp at h
  | cons a l1 ih =>
    cases l2 with
    | nil => simp at h
    | cons b l2 =>
      simp only [List.map_cons, List.cons.injEq] at h
      simp only [findById, h.1]
      rw [ih l2 (k + 1) h.2]

theorem length_putSrc (doc : Document) (e v : JSValue) :
    (putSrc doc e v).length = doc.length := by
  unfold putSrc
  split
  · split <;> simp
  · rfl

/-- A write of `src` leaves every other element as it was. -/
theorem getElem?_putSrc_of_ne (doc : Document) (e v : JSValue) (j : Nat)
    (h : e ≠ JSValue.element j) : (putSrc doc e v)[j]? = doc[j]? := by
  unfold putSrc
  split
  · rename_i i
    have hij : i ≠ j := fun hEq => h (by rw [hEq])
    split
    · exact List.getElem?_set_ne hij
    · rfl
  · rfl

/-- A write of `src` keeps the id and the other properties of every element. -/
theorem getElem?_putSrc_frame (doc : Document) (e v : JSValue) (j : Nat) (el1 el2 : Element)
    (h1 : doc[j]? = some el1) (h2 : (putSrc doc e v)[j]? = some el2) :
    el2.id = el1.id ∧ el2.attrs = el1.attrs := by
  unfold putSrc at h2
  split at h2
  · rename_i i
    split at h2
    · rename_i el hel
      rw [List.getElem?_set] at h2
      by_cases hij : i = j
      · subst hij
        rw [if_pos rfl] at h2
        have hEq : el = el1 := by
          rw [hel] at h1
          exact Option.some.inj h1
        subst hEq
        split at h2
        · have h3 := Option.some.inj h2
          subst h3
          exact ⟨rfl, rfl⟩
        · simp at h2
      · rw [if_neg hij, h1] at h2
        have h3 := Option.some.inj h2
        subst h3
        exact ⟨rfl, rfl⟩
    · rw [h1] at h2
      have h3 := Option.some.inj h2
      subst h3
      exact ⟨rfl, rfl⟩
  · rw [h1] at h2
    have h3 := Option.some.inj h2
    subst h3
    exact ⟨rfl, rfl⟩

/-- A write of `src` keeps the ids, in order. -/
theorem map_id_putSrc (doc : Document) (e v : JSValue) :
    (putSrc doc e v).map Element.id = doc.map Element.id := by
  apply List.ext_getElem?
  intro j
  rw [List.getElem?_map, List.getElem?_map]
  cases h1 : doc[j]? with
  | none =>
    have hlen : doc.length ≤ j := List.getElem?_eq_none_iff.mp h1
    have h2 : (putSrc doc e v)[j]? = none :=
      List.getElem?_eq_none_iff.mpr (by rw [length_putSrc]; exact hlen)
    rw [h2]
  | some el1 =>
    have hlt : j < (putSrc doc e v).length := by
      rw [length_putSrc]
      exact (List.getElem?_eq_some_iff.mp h1).1
    obtain ⟨el2, h2⟩ : ∃ el2, (putSrc doc e v)[j]? = some el2 :=
      ⟨_, List.getElem?_eq_getElem hlt⟩
    rw [h2]
    simp [(getElem?_putSrc_frame doc e v j el1 el2 h1 h2).1]

/-- After a write of `src` through an element reference, that element's `src`
is the value written. -/
theorem srcAt_putSrc_self (doc : Document) (i : Nat) (v : JSValue) (el : Element)
    (h : doc[i]? = some el) : srcAt (putSrc doc (JSValue.element i) v) i = some v := by
  have hlt : i < doc.length := (List.getElem?_eq_some_iff.mp h).1
  simp [srcAt, putSrc, h, List.getElem?_set_self hlt]

/-! ## What the two functions compute -/

/-- On an element whose `src` is the string `s`, `setSrcQuery` completes and
writes `base s ++ "?" ++ q`. -/
theorem setSrcQuery_element (doc : Document) (i : Nat) (s q : JSString)
    (h : srcAt doc i = some (JSValue.string s)) :
    setSrcQuery (JSValue.element i) q doc =
      (Except.ok (), putSrc doc (JSValue.element i)
        (JSValue.string (base s ++ questionStr ++ q))) := by
  unfold srcAt at h
  cases hel : doc[i]? with
  | none => simp [hel] at h
  | some el =>
    rw [hel] at h
    simp only [Option.map_some', Option.some.injEq] at h
    simp only [setSrcQuery, getSrc, hel, h]
    rw [kept_eq_base]

/-- Whatever it is given, `setSrcQuery` either leaves the document as it was
or writes one `src` through `e`. -/
theorem setSrcQuery_doc (e : JSValue) (q : JSString) (doc : Document) :
    (setSrcQuery e q doc).2 = doc ∨ ∃ v, (setSrcQuery e q doc).2 = putSrc doc e v := by
  unfold setSrcQuery
  split
  · exact Or.inl rfl
  · exact Or.inr ⟨_, rfl⟩
  · exact Or.inl rfl

/-- The document after `reloadCaptcha` is the one after its call of
`setSrcQuery`. -/
theorem reloadCaptcha_doc (now : Int) (doc : Document) :
    (reloadCaptcha now doc).2 =
      (setSrcQuery (getElementById doc captchaId) (reloadPrefix ++ numberToString now) doc).2 := by
  unfold reloadCaptcha
  split <;> simp_all

/-- Two writes of `src` through the same value: the second one wins. -/
theorem putSrc_putSrc (doc : Document) (e v1 v2 : JSValue) :
    putSrc (putSrc doc e v1) e v2 = putSrc doc e v2 := by
  cases e with
  | undefined => rfl
  | null => rfl
  | string s => rfl
  | element i =>
    cases hel : doc[i]? with
    | none => simp [putSrc, hel]
    | some el =>
      have hlt : i < doc.length := (List.getElem?_eq_some_iff.mp hel).1
      simp [putSrc, hel, List.getElem?_set_self hlt, List.set_set]

/-- When `setSrcQuery` raises, the document is the one it was given. -/
theorem setSrcQuery_error_doc (e : JSValue) (q : JSString) (doc : Document) (err : JSError)
    (h : (setSrcQuery e q doc).1 = Except.error err) : (setSrcQuery e q doc).2 = doc := by
  unfold setSrcQuery at h ⊢
  split
  · rfl
  · rename_i hget
    rw [hget] at h
    simp at h
  · rfl

/-- The value `setSrcQuery` reads through `e`, when it is a string, is the
`src` of an element of the document. -/
theorem getSrc_string (doc : Document) (e : JSValue) (s : JSString)
    (h : getSrc doc e = Except.ok (JSValue.string s)) :
    ∃ i, e = JSValue.element i ∧ srcAt doc i = some (JSValue.string s) := by
  cases e with
  | undefined => simp [getSrc] at h
  | null => simp [getSrc] at h
  | string t => simp [getSrc] at h
  | element i =>
    refine ⟨i, rfl, ?_⟩
    cases hel : doc[i]? with
    | none => simp [getSrc, hel] at h
    | some el =>
      simp only [getSrc, hel, Except.ok.injEq] at h
      simp [srcAt, hel, h]

/-- A second call of `setSrcQuery` on the same value does what a single call
with the second query does, whatever the value is. -/
theorem setSrcQuery_twice (e : JSValue) (q1 q2 : JSString) (doc : Document) :
    setSrcQuery e q2 (setSrcQuery e q1 doc).2 = setSrcQuery e q2 doc := by
  cases hget : getSrc doc e with
  | error err =>
    have h1 : (setSrcQuery e q1 doc).2 = doc := by simp [setSrcQuery, hget]
    rw [h1]
  | ok v =>
    cases v with
    | undefined =>
      have h1 : (setSrcQuery e q1 doc).2 = doc := by simp [setSrcQuery, hget]
      rw [h1]
    | null =>
      have h1 : (setSrcQuery e q1 doc).2 = doc := by simp [setSrcQuery, hget]
      rw [h1]
    | element j =>
      have h1 : (setSrcQuery e q1 doc).2 = doc := by simp [setSrcQuery, hget]
      rw [h1]
    | string s =>
      obtain ⟨i, he, hsrc⟩ := getSrc_string doc e s hget
      subst he
      obtain ⟨el, hel⟩ : ∃ el, doc[i]? = some el := by
        cases hel : doc[i]? with
        | none => simp [srcAt, hel] at hsrc
        | some el => exact ⟨el, rfl⟩
      rw [setSrcQuery_element doc i s q1 hsrc]
      have hsrc1 := srcAt_putSrc_self doc i (JSValue.string (base s ++ questionStr ++ q1)) el hel
      rw [setSrcQuery_element _ i _ q2 hsrc1, setSrcQuery_element doc i s q2 hsrc, putSrc_putSrc]
      have hb : base (base s ++ questionStr ++ q1) = base s := by
        rw [List.append_assoc]
        exact base_append_question (base s) q1 (not_mem_base s)
      rw [hb]

/-- The lookup of an id is the same after `setSrcQuery`. -/
theorem getElementById_setSrcQuery (e : JSValue) (q : JSString) (doc : Document)
    (id : JSString) :
    getElementById (setSrcQuery e q doc).2 id = getElementById doc id := by
  unfold getElementById
  apply findById_congr
  rcases setSrcQuery_doc e q doc with h | ⟨v, h⟩
  · rw [h]
  · rw [h, map_id_putSrc]

/-- What `reloadCaptcha` answers is decided by its call of `setSrcQuery`. -/
theorem reloadCaptcha_eq (now : Int) (doc : Document) :
    reloadCaptcha now doc =
      ((setSrcQuery (getElementById doc captchaId) (reloadPrefix ++ numberToString now) doc).1.map
          (fun _ => false),
        (setSrcQuery (getElementById doc captchaId) (reloadPrefix ++ numberToString now) doc).2) := by
  unfold reloadCaptcha
  split
  · rename_i err doc1 h
    rw [h]
    rfl
  · rename_i u doc1 h
    rw [h]
    rfl

/-! ## Properties of the script -/

/-- C1: on an element whose src `s` has no `?`, `setSrcQuery(e, q)` completes
and leaves the src `s ++ "?" ++ q`: the original whole, then the query. -/
theorem setSrcQuery_appends_without_query (doc : Document) (i : Nat) (s q : JSString)
    (hsrc : srcAt doc i = some (JSValue.string s)) (hno : questionMark ∉ s) :
    (setSrcQuery (JSValue.element i) q doc).1 = Except.ok () ∧
      srcAt (setSrcQuery (JSValue.element i) q doc).2 i =
        some (JSValue.string (s ++ questionStr ++ q)) := by
  obtain ⟨el, hel⟩ : ∃ el, doc[i]? = some el := by
    cases hel : doc[i]? with
    | none => simp [srcAt, hel] at hsrc
    | some el => exact ⟨el, rfl⟩
  rw [setSrcQuery_element doc i s q hsrc]
  refine ⟨rfl, ?_⟩
  rw [base_of_not_mem s hno]
  exact srcAt_putSrc_self doc i _ el hel

/-- Instance of C1: the logo (`/l`) with the query `k` becomes `/l?k`. -/
theorem setSrcQuery_appends_without_query_witness :
    (srcAt sampleDoc 0 = some (JSValue.string [47, 108]) ∧ questionMark ∉ [47, 108]) ∧
      ((setSrcQuery (JSValue.element 0) [107] sampleDoc).1 = Except.ok () ∧
        srcAt (setSrcQuery (JSValue.element 0) [107] sampleDoc).2 0 =
          some (JSValue.string ([47, 108] ++ questionStr ++ [107]))) :=
  ⟨⟨by decide, by decide⟩,
    setSrcQuery_appends_without_query sampleDoc 0 [47, 108] [107] (by decide) (by decide)⟩

/-- C2: on an element whose src is `pre ++ "?" ++ post` with no `?` in `pre`
(so that `pre` is the part strictly before the first `?`), `setSrcQuery(e, q)`
completes and leaves the src `pre ++ "?" ++ q`: all of `post`, later `?`
included, is gone.  With `pre` empty the result is `"?" ++ q`. -/
theorem setSrcQuery_replaces_query (doc : Document) (i : Nat) (pre post q : JSString)
    (hsrc : srcAt doc i = some (JSValue.string (pre ++ questionMark :: post)))
    (hpre : questionMark ∉ pre) :
    (setSrcQuery (JSValue.element i) q doc).1 = Except.ok () ∧
      srcAt (setSrcQuery (JSValue.element i) q doc).2 i =
        some (JSValue.string (pre ++ questionStr ++ q)) := by
  obtain ⟨el, hel⟩ : ∃ el, doc[i]? = some el := by
    cases hel : doc[i]? with
    | none => simp [srcAt, hel] at hsrc
    | some el => exact ⟨el, rfl⟩
  rw [setSrcQuery_element doc i _ q hsrc]
  refine ⟨rfl, ?_⟩
  rw [base_append_question pre post hpre]
  exact srcAt_putSrc_self doc i _ el hel

/-- Instance of C2: the image (`/c?x?y`) with the query `k` becomes `/c?k`. -/
theorem setSrcQuery_replaces_query_witness :
    (srcAt sampleDoc 1 = some (JSValue.string ([47, 99] ++ questionMark :: [120, 63, 121])) ∧
        questionMark ∉ [47, 99]) ∧
      ((setSrcQuery (JSValue.element 1) [107] sampleDoc).1 = Except.ok () ∧
        srcAt (setSrcQuery (JSValue.element 1) [107] sampleDoc).2 1 =
          some (JSValue.string ([47, 99] ++ questionStr ++ [107]))) :=
  ⟨⟨by decide, by decide⟩,
    setSrcQuery_replaces_query sampleDoc 1 [47, 99] [120, 63, 121] [107] (by decide) (by decide)⟩

/-- C3, as stated, fails: in a document without an element of id `captcha`,
and in one whose `captcha` element has no `src`, `reloadCaptcha` raises a
`TypeError` and returns nothing, so it does not return `false`. -/
theorem reloadCaptcha_not_always_false :
    reloadCaptcha 0 sampleDocNoCaptcha = (Except.error JSError.typeError, sampleDocNoCaptcha) ∧
      reloadCaptcha 0 [sampleDiv] = (Except.error JSError.typeError, [sampleDiv]) ∧
      ¬ ∀ (doc : Document) (now : Int), (reloadCaptcha now doc).1 = Except.ok false := by
  refine ⟨by decide, by decide, ?_⟩
  intro h
  have h0 := h sampleDocNoCaptcha 0
  revert h0
  decide

/-- C3, amended: whenever the element with id `captcha` exists and its src is
a string, `reloadCaptcha` returns `false`, at every clock value. -/
theorem reloadCaptcha_returns_false (doc : Document) (now : Int) (i : Nat) (s : JSString)
    (hfind : getElementById doc captchaId = JSValue.element i)
    (hsrc : srcAt doc i = some (JSValue.string s)) :
    (reloadCaptcha now doc).1 = Except.ok false := by
  rw [reloadCaptcha_eq, hfind, setSrcQuery_element doc i s _ hsrc]
  rfl

/-- Instance of C3 amended: the sample document at clock value 1700000000000. -/
theorem reloadCaptcha_returns_false_witness :
    (getElementById sampleDoc captchaId = JSValue.element 1 ∧
        srcAt sampleDoc 1 = some (JSValue.string [47, 99, 63, 120, 63, 121])) ∧
      (reloadCaptcha 1700000000000 sampleDoc).1 = Except.ok false :=
  ⟨⟨by decide, by decide⟩,
    reloadCaptcha_returns_false sampleDoc 1700000000000 1 [47, 99, 63, 120, 63, 121]
      (by decide) (by decide)⟩

/-- C4: when the element with id `captcha` exists with the string src `s`,
`reloadCaptcha` at clock value `now` is `setSrcQuery` on that element with the
query `reload=` followed by the decimal numeral of `now` (then `return false`),
and it leaves the element's src equal to `base s`, then `?reload=`, then that
numeral; `base s` is `s` when `s` has no `?` and the part before the first `?`
otherwise.  The literals are spelled out as code units. -/
theorem reloadCaptcha_sets_reload_query (doc : Document) (now : Int) (i : Nat) (s : JSString)
    (hfind : getElementById doc [99, 97, 112, 116, 99, 104, 97] = JSValue.element i)
    (hsrc : srcAt doc i = some (JSValue.string s)) :
    reloadCaptcha now doc =
        (Except.ok false,
          (setSrcQuery (JSValue.element i)
            ([114, 101, 108, 111, 97, 100, 61] ++ numberToString now) doc).2) ∧
      (setSrcQuery (JSValue.element i)
          ([114, 101, 108, 111, 97, 100, 61] ++ numberToString now) doc).1 = Except.ok () ∧
      srcAt (reloadCaptcha now doc).2 i =
        some (JSValue.string
          (base s ++ [63, 114, 101, 108, 111, 97, 100, 61] ++ numberToString now)) ∧
      isDecimal (numberToString now) now ∧
      ((63 : CodeUnit) ∉ s → base s = s) ∧
      (∀ pre post : JSString, s = pre ++ 63 :: post → (63 : CodeUnit) ∉ pre → base s = pre) := by
  obtain ⟨el, hel⟩ : ∃ el, doc[i]? = some el := by
    cases hel : doc[i]? with
    | none => simp [srcAt, hel] at hsrc
    | some el => exact ⟨el, rfl⟩
  have hfind1 : getElementById doc captchaId = JSValue.element i := hfind
  have hq : reloadPrefix ++ numberToString now
      = [114, 101, 108, 111, 97, 100, 61] ++ numberToString now := rfl
  have hstr : base s ++ questionStr ++ ([114, 101, 108, 111, 97, 100, 61] ++ numberToString now)
      = base s ++ [63, 114, 101, 108, 111, 97, 100, 61] ++ numberToString now := by
    simp [questionStr, questionMark]
  rw [reloadCaptcha_eq, hfind1, hq, setSrcQuery_element doc i s _ hsrc, hstr]
  refine ⟨rfl, rfl, srcAt_putSrc_self doc i _ el hel, numberToString_isDecimal now,
    fun hno => base_of_not_mem s hno, ?_⟩
  intro pre post hs hpre
  rw [hs]
  exact base_append_question pre post hpre

/-- Instance of C4: the sample image (`/c?x?y`) at clock value 12 gets the src
`/c?reload=12` and `false` is returned; the numerals of 1700000000000 and of
-5 are `1700000000000` and `-5`. -/
theorem reloadCaptcha_sets_reload_query_witness :
    (getElementById sampleDoc [99, 97, 112, 116, 99, 104, 97] = JSValue.element 1 ∧
        srcAt sampleDoc 1 = some (JSValue.string [47, 99, 63, 120, 63, 121])) ∧
      (reloadCaptcha 12 sampleDoc =
          (Except.ok false,
            (setSrcQuery (JSValue.element 1)
              ([114, 101, 108, 111, 97, 100, 61] ++ numberToString 12) sampleDoc).2) ∧
        (setSrcQuery (JSValue.element 1)
            ([114, 101, 108, 111, 97, 100, 61] ++ numberToString 12) sampleDoc).1
          = Except.ok () ∧
        srcAt (reloadCaptcha 12 sampleDoc).2 1 =
          some (JSValue.string
            (base [47, 99, 63, 120, 63, 121] ++ [63, 114, 101, 108, 111, 97, 100, 61]
              ++ numberToString 12)) ∧
        isDecimal (numberToString 12) 12 ∧
        ((63 : CodeUnit) ∉ [47, 99, 63, 120, 63, 121] →
          base [47, 99, 63, 120, 63, 121] = [47, 99, 63, 120, 63, 121]) ∧
        (∀ pre post : JSString, [47, 99, 63, 120, 63, 121] = pre ++ 63 :: post →
          (63 : CodeUnit) ∉ pre → base [47, 99, 63, 120, 63, 121] = pre)) ∧
      (reloadCaptcha 12 sampleDoc).1 = Except.ok false ∧
      srcAt (reloadCaptcha 12 sampleDoc).2 1 =
        some (JSValue.string [47, 99, 63, 114, 101, 108, 111, 97, 100, 61, 49, 50]) ∧
      srcAt (reloadCaptcha 12 sampleDoc).2 0 = some (JSValue.string [47, 108]) ∧
      base [47, 99, 63, 120, 63, 121] = [47, 99] ∧
      numberToString 1700000000000 = [49, 55, 48, 48, 48, 48, 48, 48, 48, 48, 48, 48, 48] ∧
      numberToString (-5) = [45, 53] :=
  ⟨⟨by decide, by decide⟩,
    reloadCaptcha_sets_reload_query sampleDoc 12 1 [47, 99, 63, 120, 63, 121]
      (by decide) (by decide),
    by decide, by decide, by decide, by decide, by decide, by decide⟩

/-- C5: in a document with no element of id `captcha` the lookup answers
`null`; reading `src` through `null` raises a `TypeError`, so `setSrcQuery` on
`null` raises it and so does `reloadCaptcha`; the document afterwards is the
one before, so that no src has changed. -/
theorem reloadCaptcha_absent_element (doc : Document) (now : Int)
    (habs : ∀ el ∈ doc, el.id ≠ captchaId) :
    getElementById doc captchaId = JSValue.null ∧
      getSrc doc JSValue.null = Except.error JSError.typeError ∧
      (∀ q, setSrcQuery JSValue.null q doc = (Except.error JSError.typeError, doc)) ∧
      reloadCaptcha now doc = (Except.error JSError.typeError, doc) := by
  have hnull : getElementById doc captchaId = JSValue.null :=
    (findById_eq_null_iff captchaId doc 0).mpr habs
  refine ⟨hnull, rfl, fun q => rfl, ?_⟩
  rw [reloadCaptcha_eq, hnull]
  rfl

/-- Instance of C5: a document that holds the logo only. -/
theorem reloadCaptcha_absent_element_witness :
    (∀ el ∈ sampleDocNoCaptcha, el.id ≠ captchaId) ∧
      (getElementById sampleDocNoCaptcha captchaId = JSValue.null ∧
        getSrc sampleDocNoCaptcha JSValue.null = Except.error JSError.typeError ∧
        (∀ q, setSrcQuery JSValue.null q sampleDocNoCaptcha
          = (Except.error JSError.typeError, sampleDocNoCaptcha)) ∧
        reloadCaptcha 5 sampleDocNoCaptcha
          = (Except.error JSError.typeError, sampleDocNoCaptcha)) :=
  ⟨by decide, reloadCaptcha_absent_element sampleDocNoCaptcha 5 (by decide)⟩

/-- C6: on an element whose src is a string `s` (the empty string and strings
of `?` only included) `setSrcQuery(e, q)` completes normally for every `q`;
and the index `p` found by `indexOf`, when it is at least 0 (the only case in
which `substr` is called), is less than the length of `s`. -/
theorem setSrcQuery_completes (doc : Document) (i : Nat) (s q : JSString)
    (hsrc : srcAt doc i = some (JSValue.string s)) :
    (setSrcQuery (JSValue.element i) q doc).1 = Except.ok () ∧
      (0 ≤ indexOf s questionStr → indexOf s questionStr < (s.length : Int)) := by
  rw [setSrcQuery_element doc i s q hsrc]
  refine ⟨rfl, ?_⟩
  intro hp
  by_cases hmem : questionMark ∈ s
  · rw [indexOf_of_mem s hmem]
    exact_mod_cast length_base_lt s hmem
  · rw [indexOf_of_not_mem s hmem] at hp
    omega

/-- Instance of C6: an element whose src is `??`. -/
theorem setSrcQuery_completes_witness :
    srcAt [sampleMarks] 0
        = some (JSValue.string [63, 63]) ∧
      ((setSrcQuery (JSValue.element 0) [107]
          [sampleMarks]).1 = Except.ok () ∧
        (0 ≤ indexOf [63, 63] questionStr →
          indexOf [63, 63] questionStr < (([63, 63] : JSString).length : Int))) :=
  ⟨by decide,
    setSrcQuery_completes [sampleMarks] 0 [63, 63] [107]
      (by decide)⟩

/-- C7: on an element whose src is a string `s`, `setSrcQuery` with `q1` and
then with `q2` does exactly what `setSrcQuery` with `q2` alone does (same
completion, same document), whatever `q1` holds, and leaves the src
`base s ++ "?" ++ q2`; in particular it is idempotent for a fixed query.  Two
calls of `reloadCaptcha` at `t1` then `t2` do what a single call at `t2` does,
and when that element is the one with id `captcha` they leave the src
`base s ++ "?" ++ "reload=" ++ decimal t2`. -/
theorem setSrcQuery_overwrites (doc : Document) (i : Nat) (s q1 q2 : JSString) (t1 t2 : Int)
    (hsrc : srcAt doc i = some (JSValue.string s)) :
    setSrcQuery (JSValue.element i) q2 (setSrcQuery (JSValue.element i) q1 doc).2
        = setSrcQuery (JSValue.element i) q2 doc ∧
      srcAt (setSrcQuery (JSValue.element i) q2 (setSrcQuery (JSValue.element i) q1 doc).2).2 i
        = some (JSValue.string (base s ++ questionStr ++ q2)) ∧
      setSrcQuery (JSValue.element i) q1 (setSrcQuery (JSValue.element i) q1 doc).2
        = setSrcQuery (JSValue.element i) q1 doc ∧
      reloadCaptcha t2 (reloadCaptcha t1 doc).2 = reloadCaptcha t2 doc ∧
      (getElementById doc captchaId = JSValue.element i →
        srcAt (reloadCaptcha t2 (reloadCaptcha t1 doc).2).2 i
          = some (JSValue.string
              (base s ++ questionStr ++ reloadPrefix ++ numberToString t2))) := by
  obtain ⟨el, hel⟩ : ∃ el, doc[i]? = some el := by
    cases hel : doc[i]? with
    | none => simp [srcAt, hel] at hsrc
    | some el => exact ⟨el, rfl⟩
  have hreload : reloadCaptcha t2 (reloadCaptcha t1 doc).2 = reloadCaptcha t2 doc := by
    rw [reloadCaptcha_eq t2 (reloadCaptcha t1 doc).2, reloadCaptcha_eq t2 doc,
      reloadCaptcha_doc t1 doc, getElementById_setSrcQuery, setSrcQuery_twice]
  refine ⟨setSrcQuery_twice _ q1 q2 doc, ?_, setSrcQuery_twice _ q1 q1 doc, hreload, ?_⟩
  · rw [setSrcQuery_twice, setSrcQuery_element doc i s q2 hsrc]
    exact srcAt_putSrc_self doc i _ el hel
  · intro hfind
    rw [hreload, reloadCaptcha_doc, hfind, setSrcQuery_element doc i s _ hsrc,
      List.append_assoc (base s ++ questionStr)]
    exact srcAt_putSrc_self doc i _ el hel

/-- Instance of C7: the sample image with the queries `a?b` then `k`, and the
clock values 12 then 34. -/
theorem setSrcQuery_overwrites_witness :
    srcAt sampleDoc 1 = some (JSValue.string [47, 99, 63, 120, 63, 121]) ∧
      getElementById sampleDoc captchaId = JSValue.element 1 ∧
      srcAt (setSrcQuery (JSValue.element 1) [107]
          (setSrcQuery (JSValue.element 1) [97, 63, 98] sampleDoc).2).2 1
        = some (JSValue.string [47, 99, 63, 107]) ∧
      srcAt (reloadCaptcha 34 (reloadCaptcha 12 sampleDoc).2).2 1
        = some (JSValue.string [47, 99, 63, 114, 101, 108, 111, 97, 100, 61, 51, 52]) :=
  have h := setSrcQuery_overwrites sampleDoc 1 [47, 99, 63, 120, 63, 121] [97, 63, 98] [107]
    12 34 (by decide)
  ⟨by decide, by decide, h.2.1, h.2.2.2.2 (by decide)⟩

/-- C8: on an element whose src is a string `s`, with a query `q` that has no
`?`, the src after `setSrcQuery(e, q)` is `base s ++ "?" ++ q` where `base s`
has no `?`: it holds exactly one `?`, the one right in front of `q`. -/
theorem setSrcQuery_single_query (doc : Document) (i : Nat) (s q : JSString)
    (hsrc : srcAt doc i = some (JSValue.string s)) (hq : questionMark ∉ q) :
    srcAt (setSrcQuery (JSValue.element i) q doc).2 i
        = some (JSValue.string (base s ++ questionMark :: q)) ∧
      questionMark ∉ base s ∧
      List.count questionMark (base s ++ questionMark :: q) = 1 := by
  obtain ⟨el, hel⟩ : ∃ el, doc[i]? = some el := by
    cases hel : doc[i]? with
    | none => simp [srcAt, hel] at hsrc
    | some el => exact ⟨el, rfl⟩
  refine ⟨?_, not_mem_base s, ?_⟩
  · rw [setSrcQuery_element doc i s q hsrc]
    have hassoc : base s ++ questionStr ++ q = base s ++ questionMark :: q := by
      simp [questionStr]
    rw [hassoc]
    exact srcAt_putSrc_self doc i _ el hel
  · rw [List.count_append, List.count_cons_self, List.count_eq_zero.mpr (not_mem_base s),
      List.count_eq_zero.mpr hq]

/-- Instance of C8: the sample image (`/c?x?y`) with the query `k`. -/
theorem setSrcQuery_single_query_witness :
    (srcAt sampleDoc 1 = some (JSValue.string [47, 99, 63, 120, 63, 121]) ∧
        questionMark ∉ [107]) ∧
      (srcAt (setSrcQuery (JSValue.element 1) [107] sampleDoc).2 1
          = some (JSValue.string (base [47, 99, 63, 120, 63, 121] ++ questionMark :: [107])) ∧
        questionMark ∉ base [47, 99, 63, 120, 63, 121] ∧
        List.count questionMark (base [47, 99, 63, 120, 63, 121] ++ questionMark :: [107]) = 1) :=
  ⟨⟨by decide, by decide⟩,
    setSrcQuery_single_query sampleDoc 1 [47, 99, 63, 120, 63, 121] [107]
      (by decide) (by decide)⟩

/-- C9: `setSrcQuery(e, q)` keeps the number of elements, leaves every element
other than `e` exactly as it was (its src included), and keeps the id and the
other properties of every element, `e` included; `reloadCaptcha` does the
same, `e` being the element found for the id `captcha`. -/
theorem setSrcQuery_frame (e : JSValue) (q : JSString) (doc : Document) (now : Int) :
    ((setSrcQuery e q doc).2.length = doc.length ∧
        (∀ j, e ≠ JSValue.element j → (setSrcQuery e q doc).2[j]? = doc[j]?) ∧
        (∀ (j : Nat) (el1 el2 : Element), doc[j]? = some el1 → (setSrcQuery e q doc).2[j]? = some el2 →
          el2.id = el1.id ∧ el2.attrs = el1.attrs)) ∧
      ((reloadCaptcha now doc).2.length = doc.length ∧
        (∀ j, getElementById doc captchaId ≠ JSValue.element j →
          (reloadCaptcha now doc).2[j]? = doc[j]?) ∧
        (∀ (j : Nat) (el1 el2 : Element), doc[j]? = some el1 → (reloadCaptcha now doc).2[j]? = some el2 →
          el2.id = el1.id ∧ el2.attrs = el1.attrs)) := by
  have key : ∀ (e : JSValue) (q : JSString),
      (setSrcQuery e q doc).2.length = doc.length ∧
        (∀ j, e ≠ JSValue.element j → (setSrcQuery e q doc).2[j]? = doc[j]?) ∧
        (∀ (j : Nat) (el1 el2 : Element), doc[j]? = some el1 → (setSrcQuery e q doc).2[j]? = some el2 →
          el2.id = el1.id ∧ el2.attrs = el1.attrs) := by
    intro e q
    rcases setSrcQuery_doc e q doc with h | ⟨v, h⟩
    · rw [h]
      refine ⟨rfl, fun _ _ => rfl, ?_⟩
      intro j el1 el2 h1 h2
      rw [h1] at h2
      have h3 := Option.some.inj h2
      subst h3
      exact ⟨rfl, rfl⟩
    · rw [h]
      exact ⟨length_putSrc doc e v, fun j hj => getElem?_putSrc_of_ne doc e v j hj,
        fun j el1 el2 h1 h2 => getElem?_putSrc_frame doc e v j el1 el2 h1 h2⟩
  refine ⟨key e q, ?_⟩
  rw [reloadCaptcha_doc]
  exact key _ _

end Captcha
